import Mathlib

/-!
# Render-target binding cache (`frameworks/base/libs/rs/rsFBOCache.cpp`)

A shallow embedding of `android::renderscript::FBOCache` and proofs about its
binding, rejection and dirty-flag behaviour.

* An `Allocation *` is an `Option Allocation`; `none` is `NULL`.
* The object state is passed explicitly: every member function takes the cache
  (`self`) and the context (`rsc`) and returns both.
* The context records, in call order, every dispatch through
  `rsc->mHal.funcs.framebuffer` together with the cache it was handed, and every
  `LOGE` line.
-/

namespace android.renderscript

/-- Modelled from the spec: the `Allocation` class (`rsAllocation.h`) is not part of
the sources at hand. An allocation is identified by its address and answers the two
capability queries the cache consumes ("usable as color target", "usable as render
target"). -/
structure Allocation where
  addr : Nat
  isTexture : Bool
  isRenderTarget : Bool
deriving DecidableEq, Repr

/-- Capability query `Allocation::getIsTexture()`. -/
def Allocation.getIsTexture (a : Allocation) : Bool := a.isTexture

/-- Capability query `Allocation::getIsRenderTarget()`. -/
def Allocation.getIsRenderTarget (a : Allocation) : Bool := a.isRenderTarget

/-- Modelled from the spec: `ObjectBaseRef<Allocation>` (`rsObjectBase.h`) is not part
of the sources at hand. It is a slot holding a possibly empty reference; a default
constructed slot is empty and `set` stores the reference it is given. -/
abbrev ObjectBaseRef := Option Allocation

/-- Default-constructed `ObjectBaseRef`: empty. -/
def ObjectBaseRef.empty : ObjectBaseRef := none

/-- The call `ref.set(a)`: the slot now holds `a`. -/
def ObjectBaseRef.set (_self : ObjectBaseRef) (ref : Option Allocation) : ObjectBaseRef := ref

/-- The struct `FBOCache::Hal::State`: the array of color targets, its element count
and the depth target. -/
structure FBOCache.Hal.State where
  colorTargets : List ObjectBaseRef
  colorTargetsCount : Nat
  depthTarget : ObjectBaseRef
deriving DecidableEq, Repr

/-- The struct `FBOCache::Hal`. -/
structure FBOCache.Hal where
  state : FBOCache.Hal.State
deriving DecidableEq, Repr

/-- The class `FBOCache`: the public `mHal` and the dirty flag. -/
structure FBOCache where
  mHal : FBOCache.Hal
  mDirty : Bool
deriving DecidableEq, Repr

/-- One dispatch through `rsc->mHal.funcs.framebuffer`, with the cache (`this`) the
driver was handed. -/
inductive HalCall where
  | init (fb : FBOCache)
  | destroy (fb : FBOCache)
  | setActive (fb : FBOCache)
deriving DecidableEq, Repr

/-- The context as far as the cache uses it: the framebuffer dispatches made so far
(oldest first) and the error lines logged so far (oldest first). -/
structure Context where
  framebufferCalls : List HalCall
  errorLog : List String
deriving DecidableEq, Repr

/-- A context on which nothing has been dispatched or logged yet. -/
def Context.fresh : Context := { framebufferCalls := [], errorLog := [] }

/-- The dispatch `rsc->mHal.funcs.framebuffer.init(rsc, fb)`. -/
def Context.framebuffer_init (rsc : Context) (fb : FBOCache) : Context :=
  { rsc with framebufferCalls := rsc.framebufferCalls ++ [HalCall.init fb] }

/-- The dispatch `rsc->mHal.funcs.framebuffer.destroy(rsc, fb)`. -/
def Context.framebuffer_destroy (rsc : Context) (fb : FBOCache) : Context :=
  { rsc with framebufferCalls := rsc.framebufferCalls ++ [HalCall.destroy fb] }

/-- The dispatch `rsc->mHal.funcs.framebuffer.setActive(rsc, fb)`. -/
def Context.framebuffer_setActive (rsc : Context) (fb : FBOCache) : Context :=
  { rsc with framebufferCalls := rsc.framebufferCalls ++ [HalCall.setActive fb] }

/-- The statement `LOGE(msg)`. -/
def Context.LOGE (rsc : Context) (msg : String) : Context :=
  { rsc with errorLog := rsc.errorLog ++ [msg] }

/-- The constructor `FBOCache::FBOCache()`: dirty, one color target, and a fresh array
of `colorTargetsCount` default-constructed references; `depthTarget` is default
constructed as well. -/
def FBOCache.ctor : FBOCache :=
  let colorTargetsCount : Nat := 1
  { mDirty := true
    mHal := { state := { colorTargetsCount := colorTargetsCount
                         colorTargets := List.replicate colorTargetsCount ObjectBaseRef.empty
                         depthTarget := ObjectBaseRef.empty } } }

/-- The member `FBOCache::init`. -/
def FBOCache.init (self : FBOCache) (rsc : Context) : FBOCache × Context :=
  (self, rsc.framebuffer_init self)

/-- The member `FBOCache::deinit`. -/
def FBOCache.deinit (self : FBOCache) (rsc : Context) : FBOCache × Context :=
  (self, rsc.framebuffer_destroy self)

/-- The assignment `mHal.state.colorTargets[slot].set(a)`. -/
def FBOCache.Hal.State.setColorTarget (st : FBOCache.Hal.State) (slot : Nat)
    (a : Option Allocation) : FBOCache.Hal.State :=
  { st with colorTargets :=
      st.colorTargets.set slot ((st.colorTargets.getD slot ObjectBaseRef.empty).set a) }

/-- The member `FBOCache::bindColorTarget`. -/
def FBOCache.bindColorTarget (self : FBOCache) (rsc : Context) (a : Option Allocation)
    (slot : Nat) : FBOCache × Context :=
  if slot ≥ self.mHal.state.colorTargetsCount then
    (self, rsc.LOGE "Invalid render target index")
  else
    match a with
    | some al =>
      if !al.getIsTexture then
        (self, rsc.LOGE "Invalid Color Target")
      else
        ({ mHal := { state := self.mHal.state.setColorTarget slot a }, mDirty := true }, rsc)
    | none =>
      ({ mHal := { state := self.mHal.state.setColorTarget slot a }, mDirty := true }, rsc)

/-- The member `FBOCache::bindDepthTarget`. -/
def FBOCache.bindDepthTarget (self : FBOCache) (rsc : Context) (a : Option Allocation) :
    FBOCache × Context :=
  match a with
  | some al =>
    if !al.getIsRenderTarget then
      (self, rsc.LOGE "Invalid Depth Target")
    else
      ({ mHal := { state := { self.mHal.state with
                                depthTarget := self.mHal.state.depthTarget.set a } },
         mDirty := true }, rsc)
  | none =>
    ({ mHal := { state := { self.mHal.state with
                              depthTarget := self.mHal.state.depthTarget.set a } },
       mDirty := true }, rsc)

/-- The member `FBOCache::resetAll`: the loop `for (i = 0; i < colorTargetsCount; i++)`
empties slot `i`, then the depth target is emptied and the cache marked dirty. -/
def FBOCache.resetAll (self : FBOCache) (rsc : Context) : FBOCache × Context :=
  let st := (List.range self.mHal.state.colorTargetsCount).foldl
    (fun st i => st.setColorTarget i none) self.mHal.state
  ({ mHal := { state := { st with depthTarget := st.depthTarget.set none } },
     mDirty := true }, rsc)

/-- The member `FBOCache::setup`. -/
def FBOCache.setup (self : FBOCache) (rsc : Context) : FBOCache × Context :=
  if !self.mDirty then
    (self, rsc)
  else
    let rsc := rsc.framebuffer_setActive self
    ({ self with mDirty := false }, rsc)

/-- The representation invariant of the class: `colorTargets` points to an array of
exactly `colorTargetsCount` references (the constructor allocates it so and no member
reallocates it or changes the count). -/
def FBOCache.Valid (self : FBOCache) : Prop :=
  self.mHal.state.colorTargets.length = self.mHal.state.colorTargetsCount

instance (self : FBOCache) : Decidable self.Valid := by
  unfold FBOCache.Valid
  infer_instance

/-- A call a client can make on the cache after construction. -/
inductive Call where
  | bindColorTarget (a : Option Allocation) (slot : Nat)
  | bindDepthTarget (a : Option Allocation)
  | resetAll
  | setup
deriving DecidableEq, Repr

/-- Run one client call on the cache and its context. -/
def Call.exec (c : Call) (s : FBOCache × Context) : FBOCache × Context :=
  match c with
  | Call.bindColorTarget a slot => s.1.bindColorTarget s.2 a slot
  | Call.bindDepthTarget a => s.1.bindDepthTarget s.2 a
  | Call.resetAll => s.1.resetAll s.2
  | Call.setup => s.1.setup s.2

/-- The cache and context reached from the constructor (on a fresh context) by a finite
sequence of client calls, first call first. -/
def run (calls : List Call) : FBOCache × Context :=
  calls.foldl (fun s c => c.exec s) (FBOCache.ctor, Context.fresh)

/-- The cache handed to the most recent `setActive` dispatch, if there was one. -/
def lastSetActive (calls : List HalCall) : Option FBOCache :=
  calls.reverse.findSome? fun c =>
    match c with
    | HalCall.setActive fb => some fb
    | _ => none

/-- The number of `setActive` dispatches in a trace. -/
def countSetActive (calls : List HalCall) : Nat :=
  calls.countP fun c =>
    match c with
    | HalCall.setActive _ => true
    | _ => false

/-- Whether a call passes the guards of its member function in the cache `fb`, so that
it reaches the assignments: a `bindColorTarget` with a slot in range and an allocation
that is `NULL` or a texture, a `bindDepthTarget` with an allocation that is `NULL` or a
render target, and every `resetAll`. `setup` is not a binding call. -/
def Call.accepted (fb : FBOCache) : Call → Bool
  | Call.bindColorTarget a slot =>
    decide (slot < fb.mHal.state.colorTargetsCount) && a.all Allocation.getIsTexture
  | Call.bindDepthTarget a => a.all Allocation.getIsRenderTarget
  | Call.resetAll => true
  | Call.setup => false

/-- Sample allocation usable both as texture and as render target. -/
def allocA : Allocation := { addr := 4096, isTexture := true, isRenderTarget := true }

/-- Sample allocation usable as neither. -/
def allocX : Allocation := { addr := 8192, isTexture := false, isRenderTarget := false }

/-! ## Auxiliary facts -/

/-- The state left by the first `n` rounds of the loop of `resetAll`. -/
theorem resetLoop_spec (st : FBOCache.Hal.State) (n : Nat) :
    ((List.range n).foldl (fun st i => st.setColorTarget i none) st).colorTargetsCount
        = st.colorTargetsCount ∧
    ((List.range n).foldl (fun st i => st.setColorTarget i none) st).depthTarget
        = st.depthTarget ∧
    ((List.range n).foldl (fun st i => st.setColorTarget i none) st).colorTargets.length
        = st.colorTargets.length ∧
    (∀ j, j < n → j < st.colorTargets.length →
      ((List.range n).foldl (fun st i => st.setColorTarget i none) st).colorTargets[j]?
        = some none) ∧
    (∀ x, some x ∈
        ((List.range n).foldl (fun st i => st.setColorTarget i none) st).colorTargets →
      some x ∈ st.colorTargets) := by
  induction n with
  | zero => simp
  | succ n ih =>
    rw [List.range_succ, List.foldl_append]
    simp only [List.foldl_cons, List.foldl_nil]
    generalize (List.range n).foldl (fun st i => st.setColorTarget i none) st = st2 at ih ⊢
    obtain ⟨h1, h2, h3, h4, h5⟩ := ih
    refine ⟨?_, ?_, ?_, ?_, ?_⟩
    · simpa [FBOCache.Hal.State.setColorTarget] using h1
    · simpa [FBOCache.Hal.State.setColorTarget] using h2
    · simpa [FBOCache.Hal.State.setColorTarget] using h3
    · intro j hj hlen
      simp only [FBOCache.Hal.State.setColorTarget, ObjectBaseRef.set]
      by_cases hjn : n = j
      · subst hjn
        rw [List.getElem?_set_self]
        omega
      · rw [List.getElem?_set_ne hjn]
        exact h4 j (by omega) hlen
    · intro x hx
      simp only [FBOCache.Hal.State.setColorTarget, ObjectBaseRef.set] at hx
      rcases List.mem_or_eq_of_mem_set hx with h | h
      · exact h5 x h
      · cases h

/-- Every member function keeps the representation invariant. -/
theorem exec_valid (c : Call) (s : FBOCache × Context) (h : s.1.Valid) : (c.exec s).1.Valid := by
  unfold FBOCache.Valid at *
  cases c with
  | bindColorTarget a slot =>
    simp only [Call.exec, FBOCache.bindColorTarget]
    split
    · exact h
    · split
      · split
        · exact h
        · simpa [FBOCache.Hal.State.setColorTarget] using h
      · simpa [FBOCache.Hal.State.setColorTarget] using h
  | bindDepthTarget a =>
    simp only [Call.exec, FBOCache.bindDepthTarget]
    split
    · split
      · exact h
      · exact h
    · exact h
  | resetAll =>
    simp only [Call.exec, FBOCache.resetAll]
    obtain ⟨h1, -, h3, -, -⟩ := resetLoop_spec s.1.mHal.state s.1.mHal.state.colorTargetsCount
    rw [h3, h1]
    exact h
  | setup =>
    simp only [Call.exec, FBOCache.setup]
    split
    · exact h
    · exact h

/-- Running a sequence extended by one call is running the sequence and then the call. -/
theorem run_snoc (calls : List Call) (c : Call) : run (calls ++ [c]) = c.exec (run calls) := by
  simp [run, List.foldl_append]

/-- Every state reachable from the constructor satisfies the representation invariant. -/
theorem run_valid (calls : List Call) : (run calls).1.Valid := by
  induction calls using List.reverseRecOn with
  | nil => simp [run, FBOCache.Valid, FBOCache.ctor]
  | append_singleton calls c ih =>
    rw [run_snoc]
    exact exec_valid c _ ih

/-- A call that is not accepted leaves the cache and the dispatch trace as they were, and
an accepted one leaves the cache dirty and the dispatch trace as it was. -/
theorem exec_cases (c : Call) (s : FBOCache × Context) (hc : c ≠ Call.setup) :
    (c.accepted s.1 = false ∧ (c.exec s).1 = s.1 ∧
        (c.exec s).2.framebufferCalls = s.2.framebufferCalls) ∨
    (c.accepted s.1 = true ∧ (c.exec s).1.mDirty = true ∧
        (c.exec s).2.framebufferCalls = s.2.framebufferCalls) := by
  cases c with
  | bindColorTarget a slot =>
    by_cases hs : slot < s.1.mHal.state.colorTargetsCount
    · cases a with
      | none =>
        right
        simp [Call.accepted, Call.exec, FBOCache.bindColorTarget, hs, Nat.not_le.mpr hs]
      | some al =>
        by_cases ht : al.getIsTexture = true
        · right
          simp [Call.accepted, Call.exec, FBOCache.bindColorTarget, hs, ht, Nat.not_le.mpr hs]
        · left
          simp [Call.accepted, Call.exec, FBOCache.bindColorTarget, hs, ht, Context.LOGE,
            Nat.not_le.mpr hs]
    · left
      have hge : s.1.mHal.state.colorTargetsCount ≤ slot := by omega
      simp [Call.accepted, Call.exec, FBOCache.bindColorTarget, hs, hge, Context.LOGE]
  | bindDepthTarget a =>
    cases a with
    | none =>
      right
      simp [Call.accepted, Call.exec, FBOCache.bindDepthTarget]
    | some al =>
      by_cases ht : al.getIsRenderTarget = true
      · right
        simp [Call.accepted, Call.exec, FBOCache.bindDepthTarget, ht]
      · left
        simp [Call.accepted, Call.exec, FBOCache.bindDepthTarget, ht, Context.LOGE]
  | resetAll =>
    right
    simp [Call.accepted, Call.exec, FBOCache.resetAll]
  | setup => exact absurd rfl hc

/-- The most recent `setActive` of a trace that ends with one. -/
theorem lastSetActive_snoc (calls : List HalCall) (fb : FBOCache) :
    lastSetActive (calls ++ [HalCall.setActive fb]) = some fb := by
  simp [lastSetActive, List.reverse_append]

/-- While no `setup` has been called the cache is dirty and nothing has been dispatched. -/
theorem run_no_setup (calls : List Call) (h : Call.setup ∉ calls) :
    (run calls).1.mDirty = true ∧ (run calls).2.framebufferCalls = [] := by
  induction calls using List.reverseRecOn with
  | nil => simp [run, FBOCache.ctor, Context.fresh]
  | append_singleton calls c ih =>
    have hc : c ≠ Call.setup := by
      intro hc
      exact h (by simp [hc])
    have hpre : Call.setup ∉ calls := by
      intro hm
      exact h (by simp [hm])
    obtain ⟨ihd, iht⟩ := ih hpre
    rw [run_snoc]
    rcases exec_cases c (run calls) hc with ⟨-, h1, h2⟩ | ⟨-, h1, h2⟩
    · rw [h1, h2]
      exact ⟨ihd, iht⟩
    · rw [h2]
      exact ⟨h1, iht⟩

/-- One call keeps the capability property of the bound targets. -/
theorem exec_capability (c : Call) (s : FBOCache × Context)
    (hcol : ∀ x, some x ∈ s.1.mHal.state.colorTargets → x.getIsTexture = true)
    (hdep : ∀ x, s.1.mHal.state.depthTarget = some x → x.getIsRenderTarget = true) :
    (∀ x, some x ∈ (c.exec s).1.mHal.state.colorTargets → x.getIsTexture = true) ∧
    (∀ x, (c.exec s).1.mHal.state.depthTarget = some x → x.getIsRenderTarget = true) := by
  cases c with
  | bindColorTarget a slot =>
    simp only [Call.exec, FBOCache.bindColorTarget]
    split
    · exact ⟨hcol, hdep⟩
    · split
      · rename_i al
        split
        · exact ⟨hcol, hdep⟩
        · rename_i ht
          refine ⟨?_, hdep⟩
          intro x hx
          simp only [FBOCache.Hal.State.setColorTarget, ObjectBaseRef.set] at hx
          rcases List.mem_or_eq_of_mem_set hx with h | h
          · exact hcol x h
          · cases h
            simpa using ht
      · refine ⟨?_, hdep⟩
        intro x hx
        simp only [FBOCache.Hal.State.setColorTarget, ObjectBaseRef.set] at hx
        rcases List.mem_or_eq_of_mem_set hx with h | h
        · exact hcol x h
        · cases h
  | bindDepthTarget a =>
    simp only [Call.exec, FBOCache.bindDepthTarget]
    split
    · rename_i al
      split
      · exact ⟨hcol, hdep⟩
      · rename_i ht
        refine ⟨hcol, ?_⟩
        intro x hx
        simp only [ObjectBaseRef.set] at hx
        cases hx
        simpa using ht
    · refine ⟨hcol, ?_⟩
      intro x hx
      simp [ObjectBaseRef.set] at hx
  | resetAll =>
    simp only [Call.exec, FBOCache.resetAll]
    obtain ⟨-, -, -, -, h5⟩ := resetLoop_spec s.1.mHal.state s.1.mHal.state.colorTargetsCount
    refine ⟨fun x hx => hcol x (h5 x hx), ?_⟩
    intro x hx
    simp [ObjectBaseRef.set] at hx
  | setup =>
    simp only [Call.exec, FBOCache.setup]
    split
    · exact ⟨hcol, hdep⟩
    · exact ⟨hcol, hdep⟩

/-! ## The claims -/

/-- C1: in a cache whose array has `colorTargetsCount` elements, for a slot below
`colorTargetsCount` and an allocation that is `NULL` or has `getIsTexture()` true,
after `bindColorTarget(a, slot)` the color target at that slot is exactly `a` and
`mDirty` is true; and for an allocation `d` that is `NULL` or has `getIsRenderTarget()`
true, after `bindDepthTarget(d)` the depth target is exactly `d` and `mDirty` is true. -/
theorem C1_bind_then_read (self : FBOCache) (rsc : Context) (a d : Option Allocation)
    (slot : Nat) :
    (self.Valid → slot < self.mHal.state.colorTargetsCount →
      (∀ x, a = some x → x.getIsTexture = true) →
        (self.bindColorTarget rsc a slot).1.mHal.state.colorTargets[slot]? = some a ∧
        (self.bindColorTarget rsc a slot).1.mDirty = true) ∧
    ((∀ x, d = some x → x.getIsRenderTarget = true) →
        (self.bindDepthTarget rsc d).1.mHal.state.depthTarget = d ∧
        (self.bindDepthTarget rsc d).1.mDirty = true) := by
  constructor
  · intro hv hslot ha
    have hlen : slot < self.mHal.state.colorTargets.length := by
      rw [hv]
      exact hslot
    cases a with
    | none =>
      simp [FBOCache.bindColorTarget, Nat.not_le.mpr hslot, FBOCache.Hal.State.setColorTarget,
        ObjectBaseRef.set, hlen]
    | some al =>
      have ht := ha al rfl
      simp [FBOCache.bindColorTarget, Nat.not_le.mpr hslot, FBOCache.Hal.State.setColorTarget,
        ObjectBaseRef.set, hlen, ht]
  · intro hd
    cases d with
    | none => simp [FBOCache.bindDepthTarget, ObjectBaseRef.set]
    | some al =>
      have ht := hd al rfl
      simp [FBOCache.bindDepthTarget, ObjectBaseRef.set, ht]

/-- Witness for C1: on the freshly constructed cache, binding `allocA` at slot 0 and as
depth target reads back `allocA` and leaves the cache dirty. -/
theorem C1_bind_then_read_witness :
    ((FBOCache.ctor.bindColorTarget Context.fresh (some allocA) 0).1.mHal.state.colorTargets[0]?
        = some (some allocA) ∧
      (FBOCache.ctor.bindColorTarget Context.fresh (some allocA) 0).1.mDirty = true) ∧
    ((FBOCache.ctor.bindDepthTarget Context.fresh (some allocA)).1.mHal.state.depthTarget
        = some allocA ∧
      (FBOCache.ctor.bindDepthTarget Context.fresh (some allocA)).1.mDirty = true) :=
  ⟨(C1_bind_then_read FBOCache.ctor Context.fresh (some allocA) (some allocA) 0).1
      (by decide) (by decide) (by decide),
   (C1_bind_then_read FBOCache.ctor Context.fresh (some allocA) (some allocA) 0).2
      (by decide)⟩

/-- C2: a rejected bind changes nothing. If `slot >= colorTargetsCount`, or `a` is not
`NULL` and has `getIsTexture()` false, `bindColorTarget(a, slot)` returns the cache as it
was (every color slot, the depth target, `colorTargetsCount`, `mDirty`) and dispatches
nothing to the HAL; if `a` is not `NULL` and has `getIsRenderTarget()` false,
`bindDepthTarget(a)` does likewise. -/
theorem C2_rejected_bind_unchanged (self : FBOCache) (rsc : Context) (a : Option Allocation)
    (slot : Nat) :
    ((slot ≥ self.mHal.state.colorTargetsCount ∨ ∃ x, a = some x ∧ x.getIsTexture = false) →
        (self.bindColorTarget rsc a slot).1 = self ∧
        (self.bindColorTarget rsc a slot).2.framebufferCalls = rsc.framebufferCalls) ∧
    ((∃ x, a = some x ∧ x.getIsRenderTarget = false) →
        (self.bindDepthTarget rsc a).1 = self ∧
        (self.bindDepthTarget rsc a).2.framebufferCalls = rsc.framebufferCalls) := by
  constructor
  · intro h
    by_cases hs : slot ≥ self.mHal.state.colorTargetsCount
    · simp [FBOCache.bindColorTarget, hs, Context.LOGE]
    · rcases h with h | ⟨x, hx, ht⟩
      · exact absurd h hs
      · subst hx
        simp [FBOCache.bindColorTarget, hs, ht, Context.LOGE]
  · rintro ⟨x, hx, ht⟩
    subst hx
    simp [FBOCache.bindDepthTarget, ht, Context.LOGE]

/-- Witness for C2: on a cache holding `allocA` in slot 0 and as depth target, binding
`allocX` (neither texture nor render target) is rejected and changes nothing. -/
theorem C2_rejected_bind_unchanged_witness :
    (((run [Call.bindColorTarget (some allocA) 0, Call.bindDepthTarget (some allocA)]).1.bindColorTarget
          Context.fresh (some allocX) 0).1
        = (run [Call.bindColorTarget (some allocA) 0, Call.bindDepthTarget (some allocA)]).1 ∧
      ((run [Call.bindColorTarget (some allocA) 0, Call.bindDepthTarget (some allocA)]).1.bindColorTarget
          Context.fresh (some allocX) 0).2.framebufferCalls = Context.fresh.framebufferCalls) ∧
    (((run [Call.bindColorTarget (some allocA) 0, Call.bindDepthTarget (some allocA)]).1.bindDepthTarget
          Context.fresh (some allocX)).1
        = (run [Call.bindColorTarget (some allocA) 0, Call.bindDepthTarget (some allocA)]).1 ∧
      ((run [Call.bindColorTarget (some allocA) 0, Call.bindDepthTarget (some allocA)]).1.bindDepthTarget
          Context.fresh (some allocX)).2.framebufferCalls = Context.fresh.framebufferCalls) :=
  ⟨(C2_rejected_bind_unchanged
      (run [Call.bindColorTarget (some allocA) 0, Call.bindDepthTarget (some allocA)]).1
      Context.fresh (some allocX) 0).1 (Or.inr ⟨allocX, rfl, by decide⟩),
   (C2_rejected_bind_unchanged
      (run [Call.bindColorTarget (some allocA) 0, Call.bindDepthTarget (some allocA)]).1
      Context.fresh (some allocX) 0).2 ⟨allocX, rfl, by decide⟩⟩

/-- C3: `setup` on a clean cache returns the cache and the context as they were (no HAL
dispatch); on a dirty cache it appends exactly one `setActive` dispatch, which is handed
the cache as it is at the call, logs nothing, leaves the color slots, the count and the
depth target as they were, and clears `mDirty`. -/
theorem C3_setup (self : FBOCache) (rsc : Context) :
    (self.mDirty = false → self.setup rsc = (self, rsc)) ∧
    (self.mDirty = true →
        (self.setup rsc).2.framebufferCalls = rsc.framebufferCalls ++ [HalCall.setActive self] ∧
        (self.setup rsc).2.errorLog = rsc.errorLog ∧
        (self.setup rsc).1.mHal = self.mHal ∧
        (self.setup rsc).1.mDirty = false) := by
  constructor
  · intro h
    simp [FBOCache.setup, h]
  · intro h
    simp [FBOCache.setup, h, Context.framebuffer_setActive]

/-- Witness for C3: `setup` on the clean cache reached by `[setup]` is a no-op, and
`setup` on the freshly constructed (dirty) cache dispatches once and cleans it. -/
theorem C3_setup_witness :
    (run [Call.setup]).1.setup (run [Call.setup]).2 = run [Call.setup] ∧
    ((FBOCache.ctor.setup Context.fresh).2.framebufferCalls
        = Context.fresh.framebufferCalls ++ [HalCall.setActive FBOCache.ctor] ∧
      (FBOCache.ctor.setup Context.fresh).2.errorLog = Context.fresh.errorLog ∧
      (FBOCache.ctor.setup Context.fresh).1.mHal = FBOCache.ctor.mHal ∧
      (FBOCache.ctor.setup Context.fresh).1.mDirty = false) :=
  ⟨(C3_setup (run [Call.setup]).1 (run [Call.setup]).2).1 (by decide),
   (C3_setup FBOCache.ctor Context.fresh).2 (by decide)⟩

/-- C4: in every state reachable from the constructor by `bindColorTarget`,
`bindDepthTarget`, `resetAll` and `setup` calls, if `mDirty` is false then a `setActive`
dispatch has happened and the color slots and depth target are those handed to the most
recent one. -/
theorem C4_clean_matches_last_push (calls : List Call) (h : (run calls).1.mDirty = false) :
    ∃ fb, lastSetActive (run calls).2.framebufferCalls = some fb ∧
      fb.mHal.state.colorTargets = (run calls).1.mHal.state.colorTargets ∧
      fb.mHal.state.depthTarget = (run calls).1.mHal.state.depthTarget := by
  induction calls using List.reverseRecOn with
  | nil => simp [run, FBOCache.ctor] at h
  | append_singleton calls c ih =>
    rw [run_snoc] at h ⊢
    by_cases hc : c = Call.setup
    · subst hc
      by_cases hd : (run calls).1.mDirty = true
      · refine ⟨(run calls).1, ?_, ?_, ?_⟩
        · simp only [Call.exec, FBOCache.setup, hd, Context.framebuffer_setActive]
          exact lastSetActive_snoc _ _
        · simp [Call.exec, FBOCache.setup, hd]
        · simp [Call.exec, FBOCache.setup, hd]
      · have hf : (run calls).1.mDirty = false := by simpa using hd
        have he : Call.setup.exec (run calls) = run calls := by
          simp [Call.exec, FBOCache.setup, hf]
        rw [he]
        exact ih hf
    · rcases exec_cases c (run calls) hc with ⟨-, h1, h2⟩ | ⟨-, h1, -⟩
      · rw [h1] at h ⊢
        rw [h2]
        exact ih h
      · rw [h1] at h
        cases h

/-- Witness for C4: after binding `allocA` and calling `setup` the cache is clean and
holds what was pushed. -/
theorem C4_clean_matches_last_push_witness :
    ∃ fb, lastSetActive
        (run [Call.bindColorTarget (some allocA) 0, Call.setup]).2.framebufferCalls = some fb ∧
      fb.mHal.state.colorTargets
        = (run [Call.bindColorTarget (some allocA) 0, Call.setup]).1.mHal.state.colorTargets ∧
      fb.mHal.state.depthTarget
        = (run [Call.bindColorTarget (some allocA) 0, Call.setup]).1.mHal.state.depthTarget :=
  C4_clean_matches_last_push [Call.bindColorTarget (some allocA) 0, Call.setup] (by decide)

/-- C5 as stated fails: after binding `allocA` at slot 0, `setup`, and binding `allocA`
at slot 0 again, a push has happened, `mDirty` is true, and yet the color slots and the
depth target are exactly those handed to the most recent `setActive`; the next `setup`
then pushes the same binding set a second time. -/
theorem C5_counterexample :
    (run [Call.bindColorTarget (some allocA) 0, Call.setup,
          Call.bindColorTarget (some allocA) 0]).1.mDirty = true ∧
    (lastSetActive (run [Call.bindColorTarget (some allocA) 0, Call.setup,
          Call.bindColorTarget (some allocA) 0]).2.framebufferCalls).map
        (fun fb => (fb.mHal.state.colorTargets, fb.mHal.state.depthTarget))
      = some ((run [Call.bindColorTarget (some allocA) 0, Call.setup,
          Call.bindColorTarget (some allocA) 0]).1.mHal.state.colorTargets,
        (run [Call.bindColorTarget (some allocA) 0, Call.setup,
          Call.bindColorTarget (some allocA) 0]).1.mHal.state.depthTarget) ∧
    countSetActive (run [Call.bindColorTarget (some allocA) 0, Call.setup,
          Call.bindColorTarget (some allocA) 0, Call.setup]).2.framebufferCalls = 2 := by
  decide

/-- C5, amended: in every state reachable from the constructor in which a `setActive`
dispatch has happened, if `mDirty` is true then some call that passed its guards (a
`resetAll`, or a `bindColorTarget` / `bindDepthTarget` that was not rejected) was made
after the most recent dispatch, and nothing has been dispatched since that call. -/
theorem C5_dirty_after_accepted_call (calls : List Call)
    (hd : (run calls).1.mDirty = true)
    (hp : (run calls).2.framebufferCalls ≠ []) :
    ∃ pre c post, calls = pre ++ c :: post ∧
      (run pre).2.framebufferCalls ≠ [] ∧
      c.accepted (run pre).1 = true ∧
      (run pre).2.framebufferCalls = (run calls).2.framebufferCalls := by
  induction calls using List.reverseRecOn with
  | nil => simp [run, Context.fresh] at hp
  | append_singleton calls c ih =>
    rw [run_snoc] at hd hp
    by_cases hc : c = Call.setup
    · subst hc
      by_cases hdd : (run calls).1.mDirty = true
      · simp [Call.exec, FBOCache.setup, hdd] at hd
      · have hf : (run calls).1.mDirty = false := by simpa using hdd
        have he : Call.setup.exec (run calls) = run calls := by
          simp [Call.exec, FBOCache.setup, hf]
        rw [he] at hd
        exact absurd hd hdd
    · rcases exec_cases c (run calls) hc with ⟨-, h1, h2⟩ | ⟨ha, -, h2⟩
      · rw [h1] at hd
        rw [h2] at hp
        obtain ⟨pre, c0, post, hsplit, hne, hacc, htr⟩ := ih hd hp
        refine ⟨pre, c0, post ++ [c], ?_, hne, hacc, ?_⟩
        · rw [hsplit]
          simp
        · rw [run_snoc, h2]
          exact htr
      · rw [h2] at hp
        refine ⟨calls, c, [], rfl, hp, ha, ?_⟩
        rw [run_snoc, h2]

/-- Witness for C5 (amended): in the run of the counterexample the second bind is the
accepted call made after the push. -/
theorem C5_dirty_after_accepted_call_witness :
    ∃ pre c post,
      [Call.bindColorTarget (some allocA) 0, Call.setup, Call.bindColorTarget (some allocA) 0]
        = pre ++ c :: post ∧
      (run pre).2.framebufferCalls ≠ [] ∧
      c.accepted (run pre).1 = true ∧
      (run pre).2.framebufferCalls
        = (run [Call.bindColorTarget (some allocA) 0, Call.setup,
                Call.bindColorTarget (some allocA) 0]).2.framebufferCalls :=
  C5_dirty_after_accepted_call
    [Call.bindColorTarget (some allocA) 0, Call.setup, Call.bindColorTarget (some allocA) 0]
    (by decide) (by decide)

/-- C6 as stated fails: on the clean cache reached by `[setup]`, a `bindColorTarget`
with slot 1 (out of range), a `bindColorTarget` of `allocX` (not a texture) at slot 0
and a `bindDepthTarget` of `allocX` (not a render target) each leave `mDirty` false. -/
theorem C6_counterexample :
    ((run [Call.setup]).1.bindColorTarget (run [Call.setup]).2 none 1).1.mDirty = false ∧
    ((run [Call.setup]).1.bindColorTarget (run [Call.setup]).2 (some allocX) 0).1.mDirty
      = false ∧
    ((run [Call.setup]).1.bindDepthTarget (run [Call.setup]).2 (some allocX)).1.mDirty
      = false := by
  decide

/-- C6, amended: `mDirty` is true after `bindColorTarget(a, slot)` when
`slot < colorTargetsCount` and `a` is `NULL` or has `getIsTexture()` true, after
`bindDepthTarget(a)` when `a` is `NULL` or has `getIsRenderTarget()` true, and after
every `resetAll()`; a rejected bind leaves `mDirty` as it was. -/
theorem C6_dirty_after_accepted_bind (self : FBOCache) (rsc : Context)
    (a : Option Allocation) (slot : Nat) :
    (slot < self.mHal.state.colorTargetsCount → (∀ x, a = some x → x.getIsTexture = true) →
        (self.bindColorTarget rsc a slot).1.mDirty = true) ∧
    ((∀ x, a = some x → x.getIsRenderTarget = true) →
        (self.bindDepthTarget rsc a).1.mDirty = true) ∧
    (self.resetAll rsc).1.mDirty = true ∧
    ((slot ≥ self.mHal.state.colorTargetsCount ∨ ∃ x, a = some x ∧ x.getIsTexture = false) →
        (self.bindColorTarget rsc a slot).1.mDirty = self.mDirty) ∧
    ((∃ x, a = some x ∧ x.getIsRenderTarget = false) →
        (self.bindDepthTarget rsc a).1.mDirty = self.mDirty) := by
  refine ⟨?_, ?_, ?_, ?_, ?_⟩
  · intro hslot ha
    cases a with
    | none => simp [FBOCache.bindColorTarget, Nat.not_le.mpr hslot]
    | some al => simp [FBOCache.bindColorTarget, Nat.not_le.mpr hslot, ha al rfl]
  · intro ha
    cases a with
    | none => simp [FBOCache.bindDepthTarget]
    | some al => simp [FBOCache.bindDepthTarget, ha al rfl]
  · simp [FBOCache.resetAll]
  · intro h
    by_cases hs : slot ≥ self.mHal.state.colorTargetsCount
    · simp [FBOCache.bindColorTarget, hs]
    · rcases h with h | ⟨x, hx, ht⟩
      · exact absurd h hs
      · subst hx
        simp [FBOCache.bindColorTarget, hs, ht]
  · rintro ⟨x, hx, ht⟩
    subst hx
    simp [FBOCache.bindDepthTarget, ht]

/-- Witness for C6 (amended): on the clean cache reached by `[setup]`, binding `NULL`
at slot 0 or as depth target and `resetAll` make it dirty. -/
theorem C6_dirty_after_accepted_bind_witness :
    ((run [Call.setup]).1.bindColorTarget (run [Call.setup]).2 none 0).1.mDirty = true ∧
    ((run [Call.setup]).1.bindDepthTarget (run [Call.setup]).2 none).1.mDirty = true ∧
    ((run [Call.setup]).1.resetAll (run [Call.setup]).2).1.mDirty = true :=
  ⟨(C6_dirty_after_accepted_bind (run [Call.setup]).1 (run [Call.setup]).2 none 0).1
      (by decide) (by simp),
   (C6_dirty_after_accepted_bind (run [Call.setup]).1 (run [Call.setup]).2 none 0).2.1
      (by simp),
   (C6_dirty_after_accepted_bind (run [Call.setup]).1 (run [Call.setup]).2 none 0).2.2.1⟩

/-- C7: with the capability flags a fixed part of each allocation, in every state
reachable from the constructor by `bindColorTarget`, `bindDepthTarget`, `resetAll` and
`setup` calls with any arguments, every allocation held in a color slot has
`getIsTexture()` true and the allocation held as depth target, if any, has
`getIsRenderTarget()` true. -/
theorem C7_capability_invariant (calls : List Call) (x : Allocation) :
    (some x ∈ (run calls).1.mHal.state.colorTargets → x.getIsTexture = true) ∧
    ((run calls).1.mHal.state.depthTarget = some x → x.getIsRenderTarget = true) := by
  have key : (∀ x, some x ∈ (run calls).1.mHal.state.colorTargets → x.getIsTexture = true) ∧
      (∀ x, (run calls).1.mHal.state.depthTarget = some x → x.getIsRenderTarget = true) := by
    induction calls using List.reverseRecOn with
    | nil => simp [run, FBOCache.ctor, ObjectBaseRef.empty]
    | append_singleton calls c ih =>
      rw [run_snoc]
      exact exec_capability c _ ih.1 ih.2
  exact ⟨key.1 x, key.2 x⟩

/-- Witness for C7: after a rejected and an accepted bind of each kind, slot 0 and the
depth target hold `allocA`, which has both capabilities. -/
theorem C7_capability_invariant_witness :
    (some allocA ∈ (run
      [Call.bindColorTarget (some allocX) 0, Call.bindColorTarget (some allocA) 0,
       Call.bindDepthTarget (some allocA), Call.bindDepthTarget (some allocX), Call.setup]).1.mHal.state.colorTargets ∧
      allocA.getIsTexture = true) ∧
    ((run
      [Call.bindColorTarget (some allocX) 0, Call.bindColorTarget (some allocA) 0,
       Call.bindDepthTarget (some allocA), Call.bindDepthTarget (some allocX), Call.setup]).1.mHal.state.depthTarget = some allocA ∧
      allocA.getIsRenderTarget = true) :=
  ⟨⟨by decide, (C7_capability_invariant
      [Call.bindColorTarget (some allocX) 0, Call.bindColorTarget (some allocA) 0,
       Call.bindDepthTarget (some allocA), Call.bindDepthTarget (some allocX), Call.setup]
      allocA).1 (by decide)⟩,
   ⟨by decide, (C7_capability_invariant
      [Call.bindColorTarget (some allocX) 0, Call.bindColorTarget (some allocA) 0,
       Call.bindDepthTarget (some allocA), Call.bindDepthTarget (some allocX), Call.setup]
      allocA).2 (by decide)⟩⟩

/-- C8: `setup` is idempotent. Calling it a second time right after the first returns
the cache and the context the first call returned (so the second call dispatches
nothing), and the two calls together add at most one `setActive` dispatch. -/
theorem C8_setup_idempotent (self : FBOCache) (rsc : Context) :
    (self.setup rsc).1.setup (self.setup rsc).2 = self.setup rsc ∧
    countSetActive ((self.setup rsc).1.setup (self.setup rsc).2).2.framebufferCalls
      ≤ countSetActive rsc.framebufferCalls + 1 := by
  have h1 : (self.setup rsc).1.setup (self.setup rsc).2 = self.setup rsc := by
    by_cases hd : self.mDirty = true
    · simp [FBOCache.setup, hd]
    · have hf : self.mDirty = false := by simpa using hd
      simp [FBOCache.setup, hf]
  refine ⟨h1, ?_⟩
  rw [h1]
  by_cases hd : self.mDirty = true
  · simp [FBOCache.setup, hd, Context.framebuffer_setActive, countSetActive]
  · have hf : self.mDirty = false := by simpa using hd
    simp [FBOCache.setup, hf]

/-- C9: right after the constructor `mDirty` is true, `colorTargetsCount` is 1, the
array has `colorTargetsCount` slots, each of them empty, and the depth target is empty;
a `setup` called on the new cache dispatches `setActive` once with that cache; and after
any sequence of calls that contains no `setup` the cache is still dirty, nothing has
been dispatched, and the first `setup` dispatches exactly one `setActive`. -/
theorem C9_constructor :
    FBOCache.ctor.mDirty = true ∧
    FBOCache.ctor.mHal.state.colorTargetsCount = 1 ∧
    FBOCache.ctor.mHal.state.colorTargets.length = FBOCache.ctor.mHal.state.colorTargetsCount ∧
    (∀ i, i < FBOCache.ctor.mHal.state.colorTargetsCount →
        FBOCache.ctor.mHal.state.colorTargets[i]? = some none) ∧
    FBOCache.ctor.mHal.state.depthTarget = none ∧
    (∀ rsc : Context, (FBOCache.ctor.setup rsc).2.framebufferCalls
        = rsc.framebufferCalls ++ [HalCall.setActive FBOCache.ctor] ∧
        (FBOCache.ctor.setup rsc).1.mDirty = false) ∧
    (∀ calls : List Call, Call.setup ∉ calls →
        (run calls).1.mDirty = true ∧
        (run calls).2.framebufferCalls = [] ∧
        (run (calls ++ [Call.setup])).2.framebufferCalls
          = [HalCall.setActive (run calls).1]) := by
  refine ⟨rfl, rfl, rfl, ?_, rfl, ?_, ?_⟩
  · intro i hi
    have h0 : i = 0 := by
      simp [FBOCache.ctor] at hi
      exact hi
    subst h0
    rfl
  · intro rsc
    simp [FBOCache.setup, FBOCache.ctor, Context.framebuffer_setActive]
  · intro calls hc
    obtain ⟨hd, ht⟩ := run_no_setup calls hc
    refine ⟨hd, ht, ?_⟩
    rw [run_snoc]
    simp [Call.exec, FBOCache.setup, hd, Context.framebuffer_setActive, ht]

/-- Witness for C9: after two binds and a reset (no `setup`) the first `setup` pushes. -/
theorem C9_constructor_witness :
    (run [Call.bindColorTarget (some allocA) 0, Call.bindDepthTarget none,
          Call.resetAll]).1.mDirty = true ∧
    (run [Call.bindColorTarget (some allocA) 0, Call.bindDepthTarget none,
          Call.resetAll]).2.framebufferCalls = [] ∧
    (run ([Call.bindColorTarget (some allocA) 0, Call.bindDepthTarget none,
          Call.resetAll] ++ [Call.setup])).2.framebufferCalls
      = [HalCall.setActive (run [Call.bindColorTarget (some allocA) 0,
          Call.bindDepthTarget none, Call.resetAll]).1] :=
  C9_constructor.2.2.2.2.2.2
    [Call.bindColorTarget (some allocA) 0, Call.bindDepthTarget none, Call.resetAll]
    (by decide)

/-- C10: in a cache whose array has `colorTargetsCount` elements, `resetAll` leaves
every slot below `colorTargetsCount` empty, the depth target empty, the count and the
array length as they were, `mDirty` true and the context untouched; the `setup` that
follows dispatches exactly one `setActive`, handed that all-empty cache, and a second
`setup` after it changes nothing. -/
theorem C10_resetAll (self : FBOCache) (rsc : Context) (hv : self.Valid) :
    (∀ i, i < (self.resetAll rsc).1.mHal.state.colorTargetsCount →
        (self.resetAll rsc).1.mHal.state.colorTargets[i]? = some none) ∧
    (self.resetAll rsc).1.mHal.state.depthTarget = none ∧
    (self.resetAll rsc).1.mHal.state.colorTargetsCount = self.mHal.state.colorTargetsCount ∧
    (self.resetAll rsc).1.Valid ∧
    (self.resetAll rsc).1.mDirty = true ∧
    (self.resetAll rsc).2 = rsc ∧
    ((self.resetAll rsc).1.setup (self.resetAll rsc).2).2.framebufferCalls
      = rsc.framebufferCalls ++ [HalCall.setActive (self.resetAll rsc).1] ∧
    (((self.resetAll rsc).1.setup (self.resetAll rsc).2).1.setup
        ((self.resetAll rsc).1.setup (self.resetAll rsc).2).2
      = (self.resetAll rsc).1.setup (self.resetAll rsc).2) := by
  obtain ⟨h1, -, h3, h4, -⟩ := resetLoop_spec self.mHal.state self.mHal.state.colorTargetsCount
  unfold FBOCache.Valid at hv
  refine ⟨?_, ?_, ?_, ?_, ?_, ?_, ?_, ?_⟩
  · intro i hi
    simp only [FBOCache.resetAll] at hi ⊢
    rw [h1] at hi
    exact h4 i hi (by omega)
  · simp [FBOCache.resetAll, ObjectBaseRef.set]
  · simpa [FBOCache.resetAll] using h1
  · simp only [FBOCache.Valid, FBOCache.resetAll]
    rw [h3, h1]
    exact hv
  · simp [FBOCache.resetAll]
  · simp [FBOCache.resetAll]
  · simp [FBOCache.resetAll, FBOCache.setup, Context.framebuffer_setActive]
  · simp [FBOCache.resetAll, FBOCache.setup]

/-- Witness for C10: `resetAll` on the cache holding `allocA` in slot 0 and as depth
target, after a push. -/
theorem C10_resetAll_witness :
    (run [Call.bindColorTarget (some allocA) 0, Call.bindDepthTarget (some allocA),
          Call.setup]).1.Valid ∧
    ((run [Call.bindColorTarget (some allocA) 0, Call.bindDepthTarget (some allocA),
          Call.setup]).1.resetAll Context.fresh).1.mHal.state.colorTargets[0]? = some none ∧
    ((run [Call.bindColorTarget (some allocA) 0, Call.bindDepthTarget (some allocA),
          Call.setup]).1.resetAll Context.fresh).1.mHal.state.depthTarget = none :=
  ⟨by decide,
   (C10_resetAll (run [Call.bindColorTarget (some allocA) 0, Call.bindDepthTarget (some allocA),
          Call.setup]).1 Context.fresh (by decide)).1 0 (by decide),
   (C10_resetAll (run [Call.bindColorTarget (some allocA) 0, Call.bindDepthTarget (some allocA),
          Call.setup]).1 Context.fresh (by decide)).2.1⟩

end android.renderscript
